import Mathlib

/-!
# Verification of the tic-tac-toe session server

A shallow embedding of `server.py` (multiplayer tic-tac-toe server):
the board and its Python-list indexing semantics, the win evaluator
(`check_rows`, `check_columns`, `check_diagonals`, `check_winner`),
the per-ply input handler (`get_input`), the per-room turn-engine loop
(`start_game_for_room`), room joining (`join_room`, `join_as_spectator`)
and chat labeling (`get_sender_label`, `broadcast_chat`), together with
theorems settling the specification's claims about them.

Connections are modelled by natural-number identifiers; socket sends are
modelled as events recording the recipients and the message.
-/

/-- Player identifiers (constants `PLAYER_ONE`, `PLAYER_TWO` in `server.py`). -/
def PLAYER_ONE : Nat := 1

def PLAYER_TWO : Nat := 2

/-- The board: Python list of 3 row-lists of 3 cells, cells in 0 (empty), 1, 2. -/
abbrev Board := List (List Nat)

/-- The fresh board `[[0,0,0],[0,0,0],[0,0,0]]`. -/
def emptyMatrix : Board := [[0, 0, 0], [0, 0, 0], [0, 0, 0]]

/-- Python list-index normalization for a list of length `n`: index `i` is
valid when `0 ≤ i < n` (used as is) or `-n ≤ i < 0` (wraps to `i + n`);
anything else raises `IndexError` (modelled as `none`). -/
def pyNorm (n : Nat) (i : Int) : Option Nat :=
  if 0 ≤ i ∧ i < (n : Int) then some i.toNat
  else if -(n : Int) ≤ i ∧ i < 0 then some (i + (n : Int)).toNat
  else none

/-- The assignment `room["matrix"][x][y] = p` of `server.py` line 130:
Python first indexes the outer list with `x`, then assigns at `y` in that
row; either indexing may raise `IndexError` (`none`), and negative indices
wrap. No bounds restriction to 0–2 and no emptiness check is performed. -/
def matrixAssign (m : Board) (x y : Int) (p : Nat) : Option Board :=
  match pyNorm m.length x with
  | none => none
  | some ix =>
    let row := m.getD ix []
    match pyNorm row.length y with
    | none => none
    | some iy => some (m.set ix (row.set iy p))

/-- Python `str.strip()` on the character list: drop whitespace from both
ends (ASCII whitespace; the server's protocol tokens are ASCII). -/
def stripChars (cs : List Char) : List Char :=
  ((cs.dropWhile Char.isWhitespace).reverse.dropWhile Char.isWhitespace).reverse

/-- Python `str.strip()`. -/
def pyStrip (s : String) : String := String.mk (stripChars s.toList)

/-- Python `str.startswith(p)`. -/
def pyStartsWith (s p : String) : Bool :=
  s.toList.take p.toList.length == p.toList

/-- Python `s.count(c)` for a single character. -/
def pyCountChar (s : String) (c : Char) : Nat := s.toList.count c

/-- Python `s.split(",")` when `s` contains exactly one comma: the part
before the comma and the part after it. -/
def splitAtComma (s : String) : String × String :=
  (String.mk (s.toList.takeWhile (fun c => !(c == ','))),
   String.mk ((s.toList.dropWhile (fun c => !(c == ','))).drop 1))

/-- Python `s[n:]`. -/
def pyDrop (s : String) (n : Nat) : String := String.mk (s.toList.drop n)

/-- Value of a (nonempty, all-digit) decimal digit string. -/
def digitsVal (cs : List Char) : Nat :=
  cs.foldl (fun n c => n * 10 + (c.toNat - 48)) 0

/-- Helper for `pyInt?`: parse a nonempty run of decimal digits. -/
def parseDigits (cs : List Char) : Option Nat :=
  if cs ≠ [] ∧ cs.all Char.isDigit then some (digitsVal cs) else none

/-- Python `int(s)` on a decoded text: surrounding whitespace is stripped,
an optional single `+`/`-` sign is allowed, then decimal digits; anything
else raises `ValueError` (modelled as `none`). -/
def pyInt? (s : String) : Option Int :=
  match stripChars s.toList with
  | [] => none
  | c :: rest =>
    if c = '-' then (parseDigits rest).map (fun n => -(n : Int))
    else if c = '+' then (parseDigits rest).map (fun n => (n : Int))
    else (parseDigits (c :: rest)).map (fun n => (n : Int))

/-! ## Win evaluator (`check_rows`, `check_columns`, `check_diagonals`, `check_winner`) -/

/-- `matrix[i][j]` read access; the server only reads in-range cells of its
3×3 matrix, out-of-shape reads default to 0. -/
def cellAt (m : Board) (i j : Nat) : Nat := (m.getD i []).getD j 0

/-- The row condition `row[0] == row[1] == row[2] != 0` of `check_rows`. -/
def rowWinB (row : List Nat) : Bool :=
  (row.getD 0 0 == row.getD 1 0) && (row.getD 1 0 == row.getD 2 0) && !(row.getD 2 0 == 0)

/-- `check_rows`: first row whose three cells are equal and nonzero, its
first cell; else 0 (`next((row[0] for row in matrix if ...), 0)`). -/
def check_rows (m : Board) : Nat :=
  match m.find? rowWinB with
  | some row => row.getD 0 0
  | none => 0

/-- The column condition `matrix[0][i] == matrix[1][i] == matrix[2][i] != 0`. -/
def colWinB (m : Board) (i : Nat) : Bool :=
  (cellAt m 0 i == cellAt m 1 i) && (cellAt m 1 i == cellAt m 2 i) && !(cellAt m 2 i == 0)

/-- `check_columns`: first `i` in `range(3)` whose column is equal and
nonzero, returning `matrix[0][i]`; else 0. -/
def check_columns (m : Board) : Nat :=
  match (List.range 3).find? (colWinB m) with
  | some i => cellAt m 0 i
  | none => 0

/-- `check_diagonals`: main diagonal first, then the anti-diagonal, else 0. -/
def check_diagonals (m : Board) : Nat :=
  if cellAt m 0 0 = cellAt m 1 1 ∧ cellAt m 1 1 = cellAt m 2 2 ∧ cellAt m 2 2 ≠ 0 then
    cellAt m 0 0
  else if cellAt m 0 2 = cellAt m 1 1 ∧ cellAt m 1 1 = cellAt m 2 0 ∧ cellAt m 2 0 ≠ 0 then
    cellAt m 0 2
  else 0

/-- Python `or` on integers: the left operand if it is truthy (nonzero),
else the right operand. -/
def pyOrNat (a b : Nat) : Nat := if a ≠ 0 then a else b

/-- `check_winner(matrix)`:
`check_rows(matrix) or check_columns(matrix) or check_diagonals(matrix)`. -/
def check_winner (m : Board) : Nat :=
  pyOrNat (check_rows m) (pyOrNat (check_columns m) (check_diagonals m))

/-! Specification-side win evaluator, written from the spec's words: scan the
8 winning lines in priority order rows (top to bottom), then columns (left to
right), then the two diagonals, and return the first completed line's mark. -/

/-- The mark of a completed line `(a, b, c)` — all equal and nonzero — else 0. -/
def lineWin (a b c : Nat) : Nat := if a = b ∧ b = c ∧ c ≠ 0 then a else 0

/-- The 8 winning lines in the spec's priority order:
3 rows, then 3 columns, then main diagonal, then anti-diagonal. -/
def lineCells (m : Board) : List (Nat × Nat × Nat) :=
  [ (cellAt m 0 0, cellAt m 0 1, cellAt m 0 2),
    (cellAt m 1 0, cellAt m 1 1, cellAt m 1 2),
    (cellAt m 2 0, cellAt m 2 1, cellAt m 2 2),
    (cellAt m 0 0, cellAt m 1 0, cellAt m 2 0),
    (cellAt m 0 1, cellAt m 1 1, cellAt m 2 1),
    (cellAt m 0 2, cellAt m 1 2, cellAt m 2 2),
    (cellAt m 0 0, cellAt m 1 1, cellAt m 2 2),
    (cellAt m 0 2, cellAt m 1 1, cellAt m 2 0) ]

/-- The marks of the 8 lines, in priority order. -/
def lineWins (m : Board) : List Nat :=
  (lineCells m).map (fun t => lineWin t.1 t.2.1 t.2.2)

/-- Modelled from the spec: "return the first such mark found in that
priority order, or none" — the first nonzero line mark in priority order. -/
def firstLineWin (m : Board) : Nat := (lineWins m).foldr pyOrNat 0

/-- A well-shaped 3×3 board. -/
def Wf3 (m : Board) : Prop := m.length = 3 ∧ ∀ row ∈ m, row.length = 3

instance : DecidablePred Wf3 := fun m => by unfold Wf3; infer_instance

/-! ## Rooms, sends, and the per-ply input handler (`get_input`) -/

/-- A room, as built by `join_room` / `join_as_spectator`: the room code,
the ordered player connections (index 0 = player-one), their addresses,
the spectator connections in join order, and the board. Connections and
addresses are modelled as natural-number identifiers. -/
structure Room where
  code : String
  players : List Nat
  addrs : List Nat
  spectators : List Nat
  matrix : Board
deriving DecidableEq, Repr

/-- `room_conns_all`: every connection in the room (players + spectators). -/
def room_conns_all (room : Room) : List Nat := room.players ++ room.spectators

/-- A message sent by the server: plain text, or the serialized board
`str(room["matrix"])`. -/
inductive OutMsg
  | text (s : String)
  | matrixStr (m : Board)
deriving DecidableEq, Repr

/-- A send event: the recipient connections and the message. -/
abbrev SendEvt := List Nat × OutMsg

/-- `get_sender_label`: `Player<i+1>` for the i-th player connection,
`spec_<i+1>` for the i-th spectator connection, else `Unknown`. -/
def get_sender_label (room : Room) (conn : Nat) : String :=
  if conn ∈ room.players then "Player" ++ toString (room.players.indexOf conn + 1)
  else if conn ∈ room.spectators then "spec_" ++ toString (room.spectators.indexOf conn + 1)
  else "Unknown"

/-- `broadcast_chat`: send `CHAT:<label>:<text>` to all connections in the
room (players and spectators, including the origin). -/
def broadcast_chat (room : Room) (origin : Nat) (text : String) : SendEvt :=
  (room_conns_all room, OutMsg.text ("CHAT:" ++ get_sender_label room origin ++ ":" ++ text))

/-- One receive event inside `get_input`'s wait loop: a closed/empty read
from a connection, or a decoded text message from it. -/
inductive Recv
  | closed (sender : Nat)
  | msg (sender : Nat) (raw : String)
deriving DecidableEq, Repr

/-- Result of one `get_input` call: the room as it stands when the call
returns (board and spectator list may have changed), whether the call
returned by committing a move (line 133), and the send events it issued. -/
structure GIOut where
  room : Room
  moved : Bool
  sends : List SendEvt
deriving DecidableEq, Repr

/-- The wait loop of `get_input` (lines 96–148), run over a finite list of
receive events. For each decoded text (stripped): if it comes from the
mover's connection and contains exactly one comma, it is treated as a move
`x,y` — a failed `int()` parse, or an `IndexError` from the assignment
`room["matrix"][x][y] = current_player` (caught by the loop's `except`),
silently continues the loop; a successful assignment broadcasts `Matrix`
and the serialized board and returns. Otherwise a `CHAT:`-prefixed text is
relayed via `broadcast_chat`, and anything else is ignored. A closed read
removes a spectator from the room; a player's closed read only closes that
socket. An exhausted event list models the loop still waiting. -/
def getInputLoop (current turn : Nat) : Room → List Recv → GIOut
  | room, [] => ⟨room, false, []⟩
  | room, Recv.closed s :: rest =>
    if s ∈ room.spectators then
      getInputLoop current turn { room with spectators := room.spectators.erase s } rest
    else
      getInputLoop current turn room rest
  | room, Recv.msg s raw :: rest =>
    let text := pyStrip raw
    if s = turn ∧ pyCountChar text ',' = 1 then
      let (xs, ys) := splitAtComma text
      match pyInt? xs, pyInt? ys with
      | some x, some y =>
        match matrixAssign room.matrix x y current with
        | some m2 =>
          let room2 := { room with matrix := m2 }
          ⟨room2, true,
            [(room_conns_all room2, OutMsg.text "Matrix"),
             (room_conns_all room2, OutMsg.matrixStr m2)]⟩
        | none => getInputLoop current turn room rest
      | _, _ => getInputLoop current turn room rest
    else if pyStartsWith text "CHAT:" then
      let out := getInputLoop current turn room rest
      ⟨out.room, out.moved, broadcast_chat room s (pyStrip (pyDrop text 5)) :: out.sends⟩
    else
      getInputLoop current turn room rest

/-- The environment of one `get_input` call: whether sending the `Input`
prompt to the mover succeeds, and the receive events the wait loop sees. -/
structure PlyEnv where
  promptOk : Bool
  recvs : List Recv

/-- ASCII apostrophe (codepoint 39), used in the turn announcements. -/
def apos : String := String.singleton (Char.ofNat 39)

/-- The turn announcement broadcast at the top of `get_input`. -/
def turnLabel (current_player : Nat) : String :=
  if current_player = PLAYER_ONE then "Player One" ++ apos ++ "s Turn"
  else "Player Two" ++ apos ++ "s Turn"

/-- `get_input(room, current_player)` (lines 68–148): returns immediately
if fewer than two players are present; otherwise broadcasts the turn
announcement, sends `Input` to the mover's connection — on a send failure
it attempts to send `Error` to the same connection and returns — and then
runs the wait loop. -/
def get_input (room : Room) (current_player : Nat) (env : PlyEnv) : GIOut :=
  if room.players.length < 2 then ⟨room, false, []⟩
  else
    let turn_conn := if current_player = PLAYER_ONE then room.players.getD 0 0
                     else room.players.getD 1 0
    let announce : SendEvt := (room_conns_all room, OutMsg.text (turnLabel current_player))
    if env.promptOk then
      let out := getInputLoop current_player turn_conn room env.recvs
      ⟨out.room, out.moved, announce :: ([turn_conn], OutMsg.text "Input") :: out.sends⟩
    else
      ⟨room, false, [announce, ([turn_conn], OutMsg.text "Error")]⟩

/-! ## The turn-engine loop (`start_game_for_room`) -/

/-- `current = PLAYER_ONE if turn_count % 2 == 0 else PLAYER_TWO` (line 177). -/
def currentOf (turn_count : Nat) : Nat :=
  if turn_count % 2 = 0 then PLAYER_ONE else PLAYER_TWO

/-- Record of one executed ply: the `turn_count` at its start, the mover
passed to `get_input`, and the board after `get_input` returned. -/
structure PlyRec where
  idx : Nat
  mover : Nat
  boardAfter : Board
deriving DecidableEq, Repr

/-- Result of the engine's while-loop: final room, final `result`, final
`turn_count`, and the executed plies in order. -/
structure LoopOut where
  room : Room
  result : Nat
  turn_count : Nat
  plies : List PlyRec
deriving Repr

/-- The loop `while result == 0 and turn_count < 9` of
`start_game_for_room` (lines 176–180). The bound `turn_count < 9` is
carried as the structurally decreasing fuel `9 - turn_count`, so
`fuel = 0` is exactly `turn_count ≥ 9`. -/
def gameLoopF (env : Nat → PlyEnv) : Nat → Room → Nat → Nat → LoopOut
  | 0, room, result, tc => ⟨room, result, tc, []⟩
  | fuel + 1, room, result, tc =>
    if result = 0 then
      let current := currentOf tc
      let gi := get_input room current (env tc)
      let result2 := check_winner gi.room.matrix
      let out := gameLoopF env fuel gi.room result2 (tc + 1)
      ⟨out.room, out.result, out.turn_count, ⟨tc, current, gi.room.matrix⟩ :: out.plies⟩
    else ⟨room, result, tc, []⟩

/-- The full engine loop from `result = 0`, `turn_count = 0`. -/
def gameLoop (env : Nat → PlyEnv) (room : Room) : LoopOut := gameLoopF env 9 room 0 0

/-- The result line chosen at lines 184–189. -/
def lastMsg (result : Nat) : String :=
  if result = PLAYER_ONE then "Player One is the winner!!"
  else if result = PLAYER_TWO then "Player Two is the winner!!"
  else "Draw game!! Try again later!"

/-- The room directory `rooms`: a map from code to room. -/
def RoomDir := String → Option Room

/-- `rooms[code] = room`. -/
def dirSet (d : RoomDir) (code : String) (room : Room) : RoomDir :=
  fun c => if c = code then some room else d c

/-- `rooms.pop(code, None)`. -/
def dirPop (d : RoomDir) (code : String) : RoomDir :=
  fun c => if c = code then none else d c

/-- Outcome of `start_game_for_room`: final room and `result`, the plies,
the terminal broadcasts (`Over` and the result line), the connections
closed at the end, and the directory after `rooms.pop(code, None)`. -/
structure GameOut where
  room : Room
  result : Nat
  plies : List PlyRec
  sends : List SendEvt
  closed : List Nat
  dir : RoomDir

/-- `start_game_for_room(code)` (lines 171–199): looks up the room (the
engine is only spawned for an existing room; a missing code is `none`),
runs the while-loop, broadcasts `Over` and the result line to every
connection in the room, closes them all, and removes the room from the
directory. Per-ply send events are issued inside `get_input`. -/
def start_game_for_room (d : RoomDir) (code : String) (env : Nat → PlyEnv) : Option GameOut :=
  (d code).map fun room =>
    let out := gameLoop env room
    { room := out.room, result := out.result, plies := out.plies,
      sends := [(room_conns_all out.room, OutMsg.text "Over"),
                (room_conns_all out.room, OutMsg.text (lastMsg out.result))],
      closed := room_conns_all out.room,
      dir := dirPop d code }

/-! ## Joining (`join_room`, `join_as_spectator`) -/

/-- Outcome of a join handler: the directory afterwards, the reply sends,
whether the new connection was closed, and whether a turn-engine thread
was started for the room. -/
structure JoinOut where
  dir : RoomDir
  reply : List SendEvt
  closedConn : Bool
  startedEngine : Bool

/-- `join_room(conn, addr, code)` (lines 201–229): unseen code → create a
room with this connection as player-one; exactly one player present →
append as player-two and start the turn engine; otherwise reply
`Room Full` and close the connection, mutating nothing. -/
def join_room (d : RoomDir) (conn addr : Nat) (code : String) : JoinOut :=
  match d code with
  | none =>
    let room : Room := ⟨code, [conn], [addr], [], emptyMatrix⟩
    ⟨dirSet d code room, [([conn], OutMsg.text "<<< You are player 1 >>>")], false, false⟩
  | some room =>
    if room.players.length = 1 then
      let room2 := { room with players := room.players ++ [conn], addrs := room.addrs ++ [addr] }
      ⟨dirSet d code room2, [([conn], OutMsg.text "<<< You are player 2 >>>")], false, true⟩
    else
      ⟨d, [([conn], OutMsg.text "Room Full")], true, false⟩

/-- `join_as_spectator(conn, addr, code)` (lines 231–260): create an empty
(zero-player) room for an unseen code, append the connection to the
spectators, and send the greeting plus a board sync; if that send fails
(`sendOk = false`), close the connection and remove it from the
spectators again. -/
def join_as_spectator (d : RoomDir) (conn addr : Nat) (code : String) (sendOk : Bool) : JoinOut :=
  let room0 := match d code with
    | none => (⟨code, [], [], [], emptyMatrix⟩ : Room)
    | some r => r
  let room1 := { room0 with spectators := room0.spectators ++ [conn] }
  let d1 := dirSet d code room1
  if sendOk then
    ⟨d1, [([conn], OutMsg.text "<<< You are spectator >>>"),
          ([conn], OutMsg.text "Matrix"),
          ([conn], OutMsg.matrixStr room1.matrix)], false, false⟩
  else
    ⟨dirSet d1 code { room1 with spectators := room1.spectators.erase conn }, [], true, false⟩

/-- A join operation arriving at the server (`ROOM` or `SPECTATE`
handshake routed by `start_server`). -/
inductive JoinOp
  | joinP (conn addr : Nat) (code : String)
  | joinS (conn addr : Nat) (code : String) (sendOk : Bool)

/-- The room code a join operation names. -/
def JoinOp.opCode : JoinOp → String
  | .joinP _ _ code => code
  | .joinS _ _ code _ => code

/-- Apply one join operation: the new directory and whether the operation
started a turn engine. -/
def applyOp (d : RoomDir) : JoinOp → RoomDir × Bool
  | .joinP conn addr code =>
    let o := join_room d conn addr code
    (o.dir, o.startedEngine)
  | .joinS conn addr code ok =>
    let o := join_as_spectator d conn addr code ok
    (o.dir, false)

/-- Run a sequence of join operations. -/
def runDir (d : RoomDir) : List JoinOp → RoomDir
  | [] => d
  | op :: rest => runDir (applyOp d op).1 rest

/-- How many operations of the sequence start a turn engine for `code`. -/
def startsFor (d : RoomDir) (code : String) : List JoinOp → Nat
  | [] => 0
  | op :: rest =>
    let p := applyOp d op
    (if p.2 = true ∧ op.opCode = code then 1 else 0) + startsFor p.1 code rest

/-- The empty room directory. -/
def emptyDir : RoomDir := fun _ => none

/-- The join-time invariant: every room holds at most two players. -/
def DirInv (d : RoomDir) : Prop :=
  ∀ code room, d code = some room → room.players.length ≤ 2

/-- `code` names a room with at least `n` players. -/
def countGe (d : RoomDir) (code : String) (n : Nat) : Prop :=
  ∃ room, d code = some room ∧ n ≤ room.players.length

/-! ## Concrete rooms and environments used by witnesses and counterexamples -/

/-- A two-player room with one spectator whose cell (0,0) already holds
player-two's mark. -/
def demoRoomOccupied : Room := ⟨"AB", [10, 11], [0, 1], [20], [[2, 0, 0], [0, 0, 0], [0, 0, 0]]⟩

/-- A fresh two-player room. -/
def demoRoomFresh : Room := ⟨"AB", [10, 11], [0, 1], [], emptyMatrix⟩

/-- A two-player room already holding two players, in a directory. -/
def demoDirFull : RoomDir := fun c => if c = "AB" then some demoRoomOccupied else none

/-- An environment where the `Input` prompt send fails at ply 0, player-two
moves at ply 1, and nothing further arrives. -/
def demoEnvFail : Nat → PlyEnv := fun k =>
  if k = 0 then ⟨false, []⟩
  else if k = 1 then ⟨true, [Recv.msg 11 "0,0"]⟩
  else ⟨false, []⟩

/-- An environment where nobody ever sends anything. -/
def demoEnvEmpty : Nat → PlyEnv := fun _ => ⟨true, []⟩

/-- An environment in which player-one fills the top row in three plies:
`0,0`, then `0,1`, then `0,2` (player-two plays `1,0` and `1,1`). -/
def demoEnvWin : Nat → PlyEnv := fun k =>
  if k = 0 then ⟨true, [Recv.msg 10 "0,0"]⟩
  else if k = 1 then ⟨true, [Recv.msg 11 "1,0"]⟩
  else if k = 2 then ⟨true, [Recv.msg 10 "0,1"]⟩
  else if k = 3 then ⟨true, [Recv.msg 11 "1,1"]⟩
  else if k = 4 then ⟨true, [Recv.msg 10 "0,2"]⟩
  else ⟨true, []⟩

/-- A join sequence: two players join room `AB`, then a spectator. -/
def demoOps : List JoinOp :=
  [JoinOp.joinP 1 1 "AB", JoinOp.joinP 2 2 "AB", JoinOp.joinS 3 3 "AB" true]

/-- The directory after a `SPECTATE` handshake on the unseen code `ZZ`:
it holds a zero-player room. -/
def demoDirSpec : RoomDir := (join_as_spectator emptyDir 7 7 "ZZ" true).dir

/-! ## Lemmas: win evaluator vs. the spec's priority scan -/

lemma pyOrNat_zero_right (a : Nat) : pyOrNat a 0 = a := by
  unfold pyOrNat; split <;> omega

lemma pyOrNat_assoc (a b c : Nat) :
    pyOrNat (pyOrNat a b) c = pyOrNat a (pyOrNat b c) := by
  unfold pyOrNat
  by_cases ha : a = 0 <;> by_cases hb : b = 0 <;> simp [ha, hb]

/-- The value `check_rows` would take from a single row. -/
def rowVal (row : List Nat) : Nat := if rowWinB row then row.getD 0 0 else 0

/-- The value `check_columns` would take from a single column index. -/
def colVal (m : Board) (i : Nat) : Nat := if colWinB m i then cellAt m 0 i else 0

lemma rowWinB_iff (row : List Nat) :
    rowWinB row = true ↔
      (row.getD 0 0 = row.getD 1 0 ∧ row.getD 1 0 = row.getD 2 0 ∧ row.getD 2 0 ≠ 0) := by
  simp [rowWinB, and_assoc]

lemma rowWinB_ne_zero {row : List Nat} (h : rowWinB row = true) : row.getD 0 0 ≠ 0 := by
  rw [rowWinB_iff] at h
  omega

lemma colWinB_iff (m : Board) (i : Nat) :
    colWinB m i = true ↔
      (cellAt m 0 i = cellAt m 1 i ∧ cellAt m 1 i = cellAt m 2 i ∧ cellAt m 2 i ≠ 0) := by
  simp [colWinB, and_assoc]

lemma colWinB_ne_zero {m : Board} {i : Nat} (h : colWinB m i = true) : cellAt m 0 i ≠ 0 := by
  rw [colWinB_iff] at h
  omega

lemma check_rows_three (r0 r1 r2 : List Nat) :
    check_rows [r0, r1, r2] = pyOrNat (rowVal r0) (pyOrNat (rowVal r1) (rowVal r2)) := by
  unfold check_rows rowVal pyOrNat
  cases h0 : rowWinB r0 with
  | true =>
    have hne := rowWinB_ne_zero h0
    simp [List.getD] at hne
    simp [List.find?, h0, hne]
  | false =>
    cases h1 : rowWinB r1 with
    | true =>
      have hne := rowWinB_ne_zero h1
      simp [List.getD] at hne
      simp [List.find?, h0, h1, hne]
    | false =>
      cases h2 : rowWinB r2 with
      | true =>
        have hne := rowWinB_ne_zero h2
        simp [List.getD] at hne
        simp [List.find?, h0, h1, h2, hne]
      | false => simp [List.find?, h0, h1, h2]

lemma check_columns_three (m : Board) :
    check_columns m = pyOrNat (colVal m 0) (pyOrNat (colVal m 1) (colVal m 2)) := by
  unfold check_columns colVal pyOrNat
  have hr : List.range 3 = [0, 1, 2] := rfl
  rw [hr]
  cases h0 : colWinB m 0 with
  | true =>
    have hne := colWinB_ne_zero h0
    simp [List.find?, h0, hne]
  | false =>
    cases h1 : colWinB m 1 with
    | true =>
      have hne := colWinB_ne_zero h1
      simp [List.find?, h0, h1, hne]
    | false =>
      cases h2 : colWinB m 2 with
      | true =>
        have hne := colWinB_ne_zero h2
        simp [List.find?, h0, h1, h2, hne]
      | false => simp [List.find?, h0, h1, h2]

lemma rowVal_eq_lineWin (a b c : Nat) : rowVal [a, b, c] = lineWin a b c := by
  unfold rowVal lineWin
  have hgd0 : ([a, b, c] : List Nat).getD 0 0 = a := rfl
  have hgd1 : ([a, b, c] : List Nat).getD 1 0 = b := rfl
  have hgd2 : ([a, b, c] : List Nat).getD 2 0 = c := rfl
  by_cases hc : a = b ∧ b = c ∧ c ≠ 0
  case pos =>
    have ht : rowWinB [a, b, c] = true := by
      rw [rowWinB_iff, hgd0, hgd1, hgd2]; exact hc
    rw [ht, hgd0, if_pos hc]
    simp
  case neg =>
    have hf : ¬ rowWinB [a, b, c] = true := by
      rw [rowWinB_iff, hgd0, hgd1, hgd2]; exact hc
    rw [if_neg hf, if_neg hc]

lemma colVal_eq_lineWin (m : Board) (i : Nat) :
    colVal m i = lineWin (cellAt m 0 i) (cellAt m 1 i) (cellAt m 2 i) := by
  by_cases hc : cellAt m 0 i = cellAt m 1 i ∧ cellAt m 1 i = cellAt m 2 i ∧ cellAt m 2 i ≠ 0
  · simp [colVal, lineWin, (colWinB_iff m i).mpr hc, hc]
  · have hf : colWinB m i = false := by
      cases hb : colWinB m i
      · rfl
      · exact absurd ((colWinB_iff m i).mp hb) hc
    simp [colVal, lineWin, hf, hc]

lemma check_diagonals_eq (m : Board) :
    check_diagonals m =
      pyOrNat (lineWin (cellAt m 0 0) (cellAt m 1 1) (cellAt m 2 2))
              (lineWin (cellAt m 0 2) (cellAt m 1 1) (cellAt m 2 0)) := by
  unfold check_diagonals lineWin pyOrNat
  split_ifs <;> omega

lemma check_winner_eq_firstLineWin (m : Board) (h : Wf3 m) :
    check_winner m = firstLineWin m := by
  obtain ⟨hlen, hrows⟩ := h
  obtain ⟨r0, r1, r2, rfl⟩ := List.length_eq_three.mp hlen
  obtain ⟨a, b, c, rfl⟩ := List.length_eq_three.mp (hrows r0 (by simp))
  obtain ⟨d, e, f, rfl⟩ := List.length_eq_three.mp (hrows r1 (by simp))
  obtain ⟨g, h, i, rfl⟩ := List.length_eq_three.mp (hrows r2 (by simp))
  unfold check_winner firstLineWin lineWins lineCells
  rw [check_rows_three, check_columns_three, check_diagonals_eq]
  rw [rowVal_eq_lineWin, rowVal_eq_lineWin, rowVal_eq_lineWin]
  simp only [List.map, List.foldr]
  simp only [colVal_eq_lineWin]
  simp only [cellAt, List.getD, List.get?, Option.getD_some]
  simp only [pyOrNat_assoc, pyOrNat_zero_right]

lemma foldr_pyOr_all_zero (l : List Nat) (h : ∀ x ∈ l, x = 0) :
    l.foldr pyOrNat 0 = 0 := by
  induction l with
  | nil => rfl
  | cons x xs ih =>
    have hx := h x (by simp)
    simp only [List.foldr]
    rw [ih (fun y hy => h y (by simp [hy]))]
    simp [pyOrNat, hx]

lemma foldr_pyOr_unique (l : List Nat) (j : Nat) (w : Nat)
    (hj : l.get? j = some w) (hw : w ≠ 0)
    (huniq : ∀ w2 ∈ l.eraseIdx j, w2 = 0) :
    l.foldr pyOrNat 0 = w := by
  induction l generalizing j with
  | nil => simp at hj
  | cons x xs ih =>
    cases j with
    | zero =>
      simp only [List.get?] at hj
      injection hj with hj
      subst hj
      simp only [List.eraseIdx] at huniq
      simp only [List.foldr]
      rw [foldr_pyOr_all_zero xs huniq]
      simp [pyOrNat, hw]
    | succ j' =>
      simp only [List.get?] at hj
      simp only [List.eraseIdx] at huniq
      have hx : x = 0 := huniq x (by simp)
      subst hx
      simp only [List.foldr]
      rw [ih j' hj (fun w2 h2 => huniq w2 (by simp [h2]))]
      simp [pyOrNat, hw]

/-! ## Lemmas: the engine loop -/

lemma gameLoopF_result_ne (env : Nat → PlyEnv) (fuel : Nat) (room : Room) (result tc : Nat)
    (h : result ≠ 0) : gameLoopF env fuel room result tc = ⟨room, result, tc, []⟩ := by
  cases fuel <;> simp [gameLoopF, h]

lemma gameLoopF_fuel_zero (env : Nat → PlyEnv) (room : Room) (result tc : Nat) :
    gameLoopF env 0 room result tc = ⟨room, result, tc, []⟩ := rfl

lemma gameLoopF_zero_step (env : Nat → PlyEnv) (fuel : Nat) (room : Room) (tc : Nat) :
    gameLoopF env (fuel + 1) room 0 tc =
      ⟨(gameLoopF env fuel (get_input room (currentOf tc) (env tc)).room
          (check_winner (get_input room (currentOf tc) (env tc)).room.matrix) (tc + 1)).room,
       (gameLoopF env fuel (get_input room (currentOf tc) (env tc)).room
          (check_winner (get_input room (currentOf tc) (env tc)).room.matrix) (tc + 1)).result,
       (gameLoopF env fuel (get_input room (currentOf tc) (env tc)).room
          (check_winner (get_input room (currentOf tc) (env tc)).room.matrix) (tc + 1)).turn_count,
       ⟨tc, currentOf tc, (get_input room (currentOf tc) (env tc)).room.matrix⟩ ::
       (gameLoopF env fuel (get_input room (currentOf tc) (env tc)).room
          (check_winner (get_input room (currentOf tc) (env tc)).room.matrix) (tc + 1)).plies⟩ := by
  simp [gameLoopF]

lemma gameLoopF_len_le (env : Nat → PlyEnv) :
    ∀ fuel room result tc, (gameLoopF env fuel room result tc).plies.length ≤ fuel := by
  intro fuel
  induction fuel with
  | zero => intro room result tc; rw [gameLoopF_fuel_zero]; simp
  | succ n ih =>
    intro room result tc
    by_cases h : result = 0
    · subst h
      rw [gameLoopF_zero_step]
      have := ih (get_input room (currentOf tc) (env tc)).room
        (check_winner (get_input room (currentOf tc) (env tc)).room.matrix) (tc + 1)
      simp only [List.length_cons]
      omega
    · rw [gameLoopF_result_ne env _ _ _ _ h]
      simp

lemma gameLoopF_res_zero_len (env : Nat → PlyEnv) :
    ∀ fuel room tc, (gameLoopF env fuel room 0 tc).result = 0 →
      (gameLoopF env fuel room 0 tc).plies.length = fuel := by
  intro fuel
  induction fuel with
  | zero => intro room tc _; rfl
  | succ n ih =>
    intro room tc hres
    rw [gameLoopF_zero_step] at hres ⊢
    rcases hr : check_winner (get_input room (currentOf tc) (env tc)).room.matrix with _ | r2
    · rw [hr] at hres
      have hres2 : (gameLoopF env n (get_input room (currentOf tc) (env tc)).room 0 (tc + 1)).result = 0 := hres
      simp only [List.length_cons]
      rw [ih _ (tc + 1) hres2]
    · rw [hr, gameLoopF_result_ne env n _ _ _ (by omega)] at hres
      simp at hres

lemma gameLoopF_idx_mover (env : Nat → PlyEnv) :
    ∀ fuel room result tc i p,
      (gameLoopF env fuel room result tc).plies.get? i = some p →
      p.idx = tc + i ∧ p.mover = currentOf (tc + i) := by
  intro fuel
  induction fuel with
  | zero => intro room result tc i p h; rw [gameLoopF_fuel_zero] at h; simp at h
  | succ n ih =>
    intro room result tc i p hp
    by_cases h : result = 0
    · subst h
      rw [gameLoopF_zero_step] at hp
      cases i with
      | zero =>
        simp only [List.get?] at hp
        injection hp with hp
        subst hp
        simp
      | succ i' =>
        simp only [List.get?] at hp
        have h2 := ih _ _ (tc + 1) i' p hp
        have heq : tc + 1 + i' = tc + (i' + 1) := by omega
        rw [heq] at h2
        exact ⟨h2.1, h2.2⟩
    · rw [gameLoopF_result_ne env _ _ _ _ h] at hp
      simp at hp

lemma gameLoopF_no_early_win (env : Nat → PlyEnv) :
    ∀ fuel room tc i p,
      (gameLoopF env fuel room 0 tc).plies.get? i = some p →
      i + 1 < (gameLoopF env fuel room 0 tc).plies.length →
      check_winner p.boardAfter = 0 := by
  intro fuel
  induction fuel with
  | zero => intro room tc i p h; rw [gameLoopF_fuel_zero] at h; simp at h
  | succ n ih =>
    intro room tc i p hp hlen
    rw [gameLoopF_zero_step] at hp hlen
    rcases hr : check_winner (get_input room (currentOf tc) (env tc)).room.matrix with _ | r2
    · rw [hr] at hp hlen
      cases i with
      | zero =>
        simp only [List.get?] at hp
        injection hp with hp
        subst hp
        exact hr
      | succ i' =>
        simp only [List.get?] at hp
        simp only [List.length_cons] at hlen
        exact ih _ (tc + 1) i' p hp (by omega)
    · rw [hr, gameLoopF_result_ne env n _ _ _ (by omega)] at hp hlen
      simp only [List.length_cons, List.length_nil] at hlen
      cases i with
      | zero => omega
      | succ i' => simp [List.get?] at hp

lemma gameLoopF_win_at_last (env : Nat → PlyEnv) :
    ∀ fuel room tc,
      (gameLoopF env fuel room 0 tc).result ≠ 0 →
      ∃ p, (gameLoopF env fuel room 0 tc).plies.get?
              ((gameLoopF env fuel room 0 tc).plies.length - 1) = some p ∧
           check_winner p.boardAfter = (gameLoopF env fuel room 0 tc).result := by
  intro fuel
  induction fuel with
  | zero => intro room tc h; rw [gameLoopF_fuel_zero] at h; simp at h
  | succ n ih =>
    intro room tc hres
    rw [gameLoopF_zero_step] at hres ⊢
    rcases hr : check_winner (get_input room (currentOf tc) (env tc)).room.matrix with _ | r2
    · rw [hr] at hres
      have hres2 : (gameLoopF env n (get_input room (currentOf tc) (env tc)).room 0 (tc + 1)).result ≠ 0 := hres
      obtain ⟨p, hp, hw⟩ := ih _ (tc + 1) hres2
      refine ⟨p, ?_, hw⟩
      have hpos : 0 < (gameLoopF env n (get_input room (currentOf tc) (env tc)).room 0 (tc + 1)).plies.length := by
        by_contra h0
        rw [List.get?_eq_none.mpr (by omega)] at hp
        exact Option.noConfusion hp
      simp only [List.length_cons]
      rw [show (gameLoopF env n (get_input room (currentOf tc) (env tc)).room 0 (tc + 1)).plies.length + 1 - 1
          = ((gameLoopF env n (get_input room (currentOf tc) (env tc)).room 0 (tc + 1)).plies.length - 1) + 1 by omega]
      simpa using hp
    · rw [gameLoopF_result_ne env n _ _ _ (by omega)]
      refine ⟨⟨tc, currentOf tc, (get_input room (currentOf tc) (env tc)).room.matrix⟩, by simp, ?_⟩
      simpa using hr

/-! ## Lemmas: joining and the room directory -/

lemma dirSet_self (d : RoomDir) (code : String) (room : Room) :
    dirSet d code room code = some room := by
  simp [dirSet]

lemma dirSet_other (d : RoomDir) (code : String) (room : Room) (c : String) (h : c ≠ code) :
    dirSet d code room c = d c := by
  simp [dirSet, h]

lemma join_room_started_iff (d : RoomDir) (conn addr : Nat) (code : String) :
    (join_room d conn addr code).startedEngine = true ↔
      ∃ r, d code = some r ∧ r.players.length = 1 := by
  unfold join_room
  rcases hd : d code with _ | r
  · simp
  · by_cases hl : r.players.length = 1 <;> simp [hl]

lemma join_room_dir_other (d : RoomDir) (conn addr : Nat) (code c : String) (h : c ≠ code) :
    (join_room d conn addr code).dir c = d c := by
  unfold join_room
  rcases hd : d code with _ | r
  · simp [dirSet, h]
  · by_cases hl : r.players.length = 1 <;> simp [hl, dirSet, h]

lemma joinS_dir_other (d : RoomDir) (conn addr : Nat) (code : String) (ok : Bool) (c : String)
    (h : c ≠ code) : (join_as_spectator d conn addr code ok).dir c = d c := by
  unfold join_as_spectator
  rcases hd : d code with _ | r <;> cases ok <;> simp [dirSet, h]

lemma join_room_players_self (d : RoomDir) (conn addr : Nat) (code : String) :
    ∃ r2, (join_room d conn addr code).dir code = some r2 ∧
      ((d code = none ∧ r2.players = [conn]) ∨
       (∃ r, d code = some r ∧
         ((r.players.length = 1 ∧ r2.players = r.players ++ [conn]) ∨
          (r.players.length ≠ 1 ∧ r2 = r)))) := by
  unfold join_room
  rcases hd : d code with _ | r
  · refine ⟨⟨code, [conn], [addr], [], emptyMatrix⟩, ?_, Or.inl ⟨rfl, rfl⟩⟩
    simp [dirSet]
  · by_cases hl : r.players.length = 1
    · refine ⟨{ r with players := r.players ++ [conn], addrs := r.addrs ++ [addr] }, ?_,
        Or.inr ⟨r, rfl, Or.inl ⟨hl, rfl⟩⟩⟩
      simp [hl, dirSet]
    · refine ⟨r, ?_, Or.inr ⟨r, rfl, Or.inr ⟨hl, rfl⟩⟩⟩
      simp [hl, hd]

lemma joinS_players_self (d : RoomDir) (conn addr : Nat) (code : String) (ok : Bool) :
    ∃ r2, (join_as_spectator d conn addr code ok).dir code = some r2 ∧
      ((d code = none ∧ r2.players = []) ∨
       (∃ r, d code = some r ∧ r2.players = r.players)) := by
  unfold join_as_spectator
  rcases hd : d code with _ | r <;> cases ok
  · refine ⟨⟨code, [], [], ([] ++ [conn]).erase conn, emptyMatrix⟩, ?_, Or.inl ⟨rfl, rfl⟩⟩
    simp [dirSet]
  · refine ⟨⟨code, [], [], [] ++ [conn], emptyMatrix⟩, ?_, Or.inl ⟨rfl, rfl⟩⟩
    simp [dirSet]
  · refine ⟨{ r with spectators := (r.spectators ++ [conn]).erase conn }, ?_,
      Or.inr ⟨r, rfl, rfl⟩⟩
    simp [dirSet]
  · refine ⟨{ r with spectators := r.spectators ++ [conn] }, ?_, Or.inr ⟨r, rfl, rfl⟩⟩
    simp [dirSet]

lemma applyOp_dir_lookup (d : RoomDir) (op : JoinOp) (c : String) (h : c ≠ op.opCode) :
    (applyOp d op).1 c = d c := by
  cases op with
  | joinP conn addr code => exact join_room_dir_other d conn addr code c h
  | joinS conn addr code ok => exact joinS_dir_other d conn addr code ok c h

lemma applyOp_players_self (d : RoomDir) (op : JoinOp) :
    ∃ r2, (applyOp d op).1 op.opCode = some r2 ∧
      ((d op.opCode = none ∧ r2.players.length ≤ 1) ∨
       (∃ r, d op.opCode = some r ∧ r.players.length ≤ r2.players.length ∧
         r2.players.length ≤ r.players.length + 1 ∧
         (r2.players.length ≠ r.players.length → r.players.length = 1))) := by
  cases op with
  | joinP conn addr code =>
    obtain ⟨r2, hr2, hcase⟩ := join_room_players_self d conn addr code
    refine ⟨r2, hr2, ?_⟩
    rcases hcase with ⟨hnone, hp⟩ | ⟨r, hsome, hcase2⟩
    · exact Or.inl ⟨hnone, by simp [hp]⟩
    · rcases hcase2 with ⟨hl, hp⟩ | ⟨hl, heq⟩
      · refine Or.inr ⟨r, hsome, ?_, ?_, fun _ => hl⟩
        · rw [hp]; simp
        · rw [hp]; simp
      · have h1 : r2.players.length = r.players.length := by rw [heq]
        exact Or.inr ⟨r, hsome, by omega, by omega, fun hne => absurd h1 hne⟩
  | joinS conn addr code ok =>
    obtain ⟨r2, hr2, hcase⟩ := joinS_players_self d conn addr code ok
    refine ⟨r2, hr2, ?_⟩
    rcases hcase with ⟨hnone, hp⟩ | ⟨r, hsome, hp⟩
    · exact Or.inl ⟨hnone, by simp [hp]⟩
    · have h1 : r2.players.length = r.players.length := by rw [hp]
      exact Or.inr ⟨r, hsome, by omega, by omega, by omega⟩

lemma applyOp_dirInv (d : RoomDir) (op : JoinOp) (h : DirInv d) : DirInv (applyOp d op).1 := by
  intro c room hc
  by_cases hcode : c = op.opCode
  · subst hcode
    obtain ⟨r2, hr2, hcase⟩ := applyOp_players_self d op
    rw [hc] at hr2
    injection hr2 with hr2
    subst hr2
    rcases hcase with ⟨_, hle⟩ | ⟨r, hsome, _, hle, hone⟩
    · omega
    · have := h _ _ hsome
      by_cases heq : room.players.length = r.players.length
      · omega
      · have := hone heq
        omega
  · rw [applyOp_dir_lookup d op c hcode] at hc
    exact h _ _ hc

lemma runDir_dirInv (ops : List JoinOp) :
    ∀ d, DirInv d → DirInv (runDir d ops) := by
  induction ops with
  | nil => intro d h; exact h
  | cons op rest ih => intro d h; exact ih _ (applyOp_dirInv d op h)

lemma countGe_mono (d : RoomDir) (op : JoinOp) (code : String) (n : Nat)
    (h : countGe d code n) : countGe (applyOp d op).1 code n := by
  obtain ⟨r, hr, hn⟩ := h
  by_cases hcode : code = op.opCode
  · subst hcode
    obtain ⟨r2, hr2, hcase⟩ := applyOp_players_self d op
    rcases hcase with ⟨hnone, _⟩ | ⟨r3, hsome, hle, _, _⟩
    · rw [hr] at hnone; exact Option.noConfusion hnone
    · rw [hr] at hsome
      injection hsome with hsome
      subst hsome
      exact ⟨r2, hr2, by omega⟩
  · exact ⟨r, by rw [applyOp_dir_lookup d op code hcode]; exact hr, hn⟩

lemma applyOp_started (d : RoomDir) (op : JoinOp)
    (h : (applyOp d op).2 = true) :
    ∃ r, d op.opCode = some r ∧ r.players.length = 1 := by
  cases op with
  | joinP conn addr code => exact (join_room_started_iff d conn addr code).mp h
  | joinS conn addr code ok => simp [applyOp] at h

lemma applyOp_started_countGe2 (d : RoomDir) (op : JoinOp)
    (h : (applyOp d op).2 = true) : countGe (applyOp d op).1 op.opCode 2 := by
  obtain ⟨r, hr, hl⟩ := applyOp_started d op h
  cases op with
  | joinP conn addr code =>
    obtain ⟨r2, hr2, hcase⟩ := join_room_players_self d conn addr code
    simp only [JoinOp.opCode] at hr ⊢
    rcases hcase with ⟨hnone, _⟩ | ⟨r3, hsome, hcase2⟩
    · rw [hr] at hnone; exact Option.noConfusion hnone
    · rw [hr] at hsome
      injection hsome with hsome
      subst hsome
      rcases hcase2 with ⟨_, hp⟩ | ⟨hne, _⟩
      · exact ⟨r2, hr2, by simp [hp, hl]⟩
      · exact absurd hl hne
  | joinS conn addr code ok => simp [applyOp] at h

lemma no_start_of_countGe2 (d : RoomDir) (op : JoinOp)
    (h : countGe d op.opCode 2) : (applyOp d op).2 = false := by
  cases hs : (applyOp d op).2
  · rfl
  · obtain ⟨r, hr, hl⟩ := applyOp_started d op hs
    obtain ⟨r2, hr2, hge⟩ := h
    rw [hr] at hr2
    injection hr2 with hr2
    subst hr2
    omega

lemma startsFor_cons (d : RoomDir) (code : String) (op : JoinOp) (rest : List JoinOp) :
    startsFor d code (op :: rest) =
      (if (applyOp d op).2 = true ∧ op.opCode = code then 1 else 0) +
        startsFor (applyOp d op).1 code rest := rfl

lemma startsFor_zero_of_countGe2 (code : String) (ops : List JoinOp) :
    ∀ d, countGe d code 2 → startsFor d code ops = 0 := by
  induction ops with
  | nil => intro d _; rfl
  | cons op rest ih =>
    intro d h
    rw [startsFor_cons]
    by_cases hcode : op.opCode = code
    · have hfalse : (applyOp d op).2 = false :=
        no_start_of_countGe2 d op (by rw [hcode]; exact h)
      rw [hfalse]
      simp only [Bool.false_eq_true, false_and, if_false]
      rw [ih _ (countGe_mono d op code 2 h)]
    · rw [if_neg (fun hc => hcode hc.2)]
      rw [ih _ (countGe_mono d op code 2 h)]

lemma startsFor_le_one (code : String) (ops : List JoinOp) :
    ∀ d, startsFor d code ops ≤ 1 := by
  induction ops with
  | nil => intro d; simp [startsFor]
  | cons op rest ih =>
    intro d
    rw [startsFor_cons]
    by_cases hst : (applyOp d op).2 = true ∧ op.opCode = code
    · rw [if_pos hst]
      have h2 : countGe (applyOp d op).1 code 2 := by
        rw [← hst.2]; exact applyOp_started_countGe2 d op hst.1
      rw [startsFor_zero_of_countGe2 code rest _ h2]
    · rw [if_neg hst]
      have := ih (applyOp d op).1
      omega

lemma not_countGe2_preserved (d : RoomDir) (op : JoinOp) (code : String)
    (h : ¬ countGe d code 2) (hns : ¬ ((applyOp d op).2 = true ∧ op.opCode = code)) :
    ¬ countGe (applyOp d op).1 code 2 := by
  intro hafter
  apply h
  obtain ⟨r2, hr2, hge⟩ := hafter
  by_cases hcode : code = op.opCode
  · subst hcode
    obtain ⟨r3, hr3, hcase⟩ := applyOp_players_self d op
    rw [hr2] at hr3
    injection hr3 with hr3
    subst hr3
    rcases hcase with ⟨_, hle⟩ | ⟨r, hsome, _, hle, hone⟩
    · omega
    · by_cases heq : r2.players.length = r.players.length
      · exact ⟨r, hsome, by omega⟩
      · have h1 := hone heq
        exfalso
        cases op with
        | joinP conn addr code2 =>
          exact hns ⟨(join_room_started_iff d conn addr code2).mpr ⟨r, hsome, h1⟩, rfl⟩
        | joinS conn addr code2 ok =>
          obtain ⟨r4, hr4, hc4⟩ := joinS_players_self d conn addr code2 ok
          have hsame : (applyOp d (JoinOp.joinS conn addr code2 ok)).1 =
              (join_as_spectator d conn addr code2 ok).dir := rfl
          rw [hsame] at hr2
          simp only [JoinOp.opCode] at hr2 hsome
          rw [hr2] at hr4
          injection hr4 with hr4
          subst hr4
          rcases hc4 with ⟨hnone, _⟩ | ⟨r5, hsome5, hp5⟩
          · rw [hsome] at hnone; exact Option.noConfusion hnone
          · rw [hsome] at hsome5
            injection hsome5 with hsome5
            subst hsome5
            rw [hp5] at heq
            exact heq rfl
  · rw [applyOp_dir_lookup d op code hcode] at hr2
    exact ⟨r2, hr2, hge⟩

lemma startsFor_pos_of_reach2 (code : String) (ops : List JoinOp) :
    ∀ d, ¬ countGe d code 2 → countGe (runDir d ops) code 2 → 1 ≤ startsFor d code ops := by
  induction ops with
  | nil => intro d h hrun; exact absurd hrun h
  | cons op rest ih =>
    intro d h hrun
    rw [startsFor_cons]
    by_cases hst : (applyOp d op).2 = true ∧ op.opCode = code
    · rw [if_pos hst]; omega
    · rw [if_neg hst]
      have hnot2 := not_countGe2_preserved d op code h hst
      have hrun2 : countGe (runDir (applyOp d op).1 rest) code 2 := hrun
      have := ih (applyOp d op).1 hnot2 hrun2
      omega

/-! ## Lemmas: rejection replies, prompt failure, chat relay and labeling -/

lemma join_room_full (d : RoomDir) (conn addr : Nat) (code : String) (room : Room)
    (h : d code = some room) (hne : room.players.length ≠ 1) :
    join_room d conn addr code = ⟨d, [([conn], OutMsg.text "Room Full")], true, false⟩ := by
  unfold join_room
  rcases hd : d code with _ | r
  · rw [hd] at h; exact Option.noConfusion h
  · rw [hd] at h
    injection h with h
    subst h
    simp [hne]

lemma get_input_prompt_fail (room : Room) (current : Nat) (env : PlyEnv)
    (hp : env.promptOk = false) (h2 : ¬ room.players.length < 2) :
    get_input room current env =
      ⟨room, false,
        [(room_conns_all room, OutMsg.text (turnLabel current)),
         ([if current = PLAYER_ONE then room.players.getD 0 0 else room.players.getD 1 0],
          OutMsg.text "Error")]⟩ := by
  unfold get_input
  rw [if_neg h2, hp]
  simp

lemma getInputLoop_chat (room : Room) (current turn s : Nat) (raw : String) (rest : List Recv)
    (hnm : ¬(s = turn ∧ pyCountChar (pyStrip raw) ',' = 1))
    (hchat : pyStartsWith (pyStrip raw) "CHAT:" = true) :
    getInputLoop current turn room (Recv.msg s raw :: rest) =
      ⟨(getInputLoop current turn room rest).room,
       (getInputLoop current turn room rest).moved,
       broadcast_chat room s (pyStrip (pyDrop (pyStrip raw) 5)) ::
         (getInputLoop current turn room rest).sends⟩ := by
  conv_lhs => rw [getInputLoop]
  rw [if_neg hnm, if_pos hchat]

lemma get_sender_label_player (room : Room) (conn : Nat) (h : conn ∈ room.players) :
    get_sender_label room conn = "Player" ++ toString (room.players.indexOf conn + 1) := by
  unfold get_sender_label
  rw [if_pos h]

lemma get_sender_label_player12 (room : Room) (conn : Nat) (h : conn ∈ room.players)
    (h2 : room.players.length ≤ 2) :
    get_sender_label room conn = "Player1" ∨ get_sender_label room conn = "Player2" := by
  rw [get_sender_label_player room conn h]
  have hlt : room.players.indexOf conn < room.players.length := List.indexOf_lt_length.mpr h
  have hcases : room.players.indexOf conn = 0 ∨ room.players.indexOf conn = 1 := by omega
  rcases hcases with h0 | h1
  · left; rw [h0]; decide
  · right; rw [h1]; decide

lemma get_sender_label_spectator (room : Room) (conn : Nat) (h : conn ∉ room.players)
    (h2 : conn ∈ room.spectators) :
    get_sender_label room conn = "spec_" ++ toString (room.spectators.indexOf conn + 1) := by
  unfold get_sender_label
  rw [if_neg h, if_pos h2]

lemma get_sender_label_unknown (room : Room) (conn : Nat) (h : conn ∉ room.players)
    (h2 : conn ∉ room.spectators) :
    get_sender_label room conn = "Unknown" := by
  unfold get_sender_label
  rw [if_neg h, if_neg h2]

/-! ## Claim theorems -/

/-- Claim C1 (code bug): the claim states that a move from the mover with a
coordinate outside 0–2, or targeting a non-empty cell, is silently ignored —
board unchanged, ply not advanced. The code has no such validation: the
assignment `room["matrix"][x][y] = current_player` (line 130) overwrites an
occupied cell and ends the ply, and a negative coordinate such as `-1,0`
wraps via Python list indexing and is committed. This theorem evaluates the
embedding at those failing inputs: player-one's `0,0` onto player-two's
mark is written and the ply completes (`moved = true`), and `-1,0` writes
into row 2 of an empty board. -/
theorem c1_move_committed_without_validation :
    matrixAssign [[2, 0, 0], [0, 0, 0], [0, 0, 0]] 0 0 1 =
      some [[1, 0, 0], [0, 0, 0], [0, 0, 0]] ∧
    matrixAssign emptyMatrix (-1) 0 1 = some [[0, 0, 0], [0, 0, 0], [1, 0, 0]] ∧
    getInputLoop PLAYER_ONE 10 demoRoomOccupied [Recv.msg 10 "0,0"] =
      ⟨{ demoRoomOccupied with matrix := [[1, 0, 0], [0, 0, 0], [0, 0, 0]] }, true,
        [([10, 11, 20], OutMsg.text "Matrix"),
         ([10, 11, 20], OutMsg.matrixStr [[1, 0, 0], [0, 0, 0], [0, 0, 0]])]⟩ :=
  ⟨by decide, by decide, by decide⟩

/-- Claim C2 counterexample: the claim states that after a failed
`Input`-prompt send the engine aborts with no further plies. In
`demoEnvFail` the prompt send fails at ply 0, yet the engine plays all
9 plies, and player-two's move at ply 1 is committed to the board. -/
theorem c2_counterexample_prompt_fail_continues :
    (demoEnvFail 0).promptOk = false ∧
    (gameLoop demoEnvFail demoRoomFresh).plies.length = 9 ∧
    ((gameLoop demoEnvFail demoRoomFresh).plies.get? 1).map PlyRec.boardAfter =
      some [[2, 0, 0], [0, 0, 0], [0, 0, 0]] :=
  ⟨rfl, by decide, by decide⟩

/-- Claim C2 (amended): when sending the `Input` prompt fails, `get_input`
attempts to send `Error` to the mover's connection and returns without a
move, leaving the room unchanged; the Turn Engine still counts the ply and
continues rather than aborting — in every run in which no winner arises,
all 9 plies execute, prompt failures included. -/
theorem c2_amended_prompt_fail_no_abort (room : Room) (current : Nat) (env1 : PlyEnv)
    (hp : env1.promptOk = false) (h2 : 2 ≤ room.players.length) :
    get_input room current env1 =
      ⟨room, false,
        [(room_conns_all room, OutMsg.text (turnLabel current)),
         ([if current = PLAYER_ONE then room.players.getD 0 0 else room.players.getD 1 0],
          OutMsg.text "Error")]⟩ ∧
    (∀ env room2, (gameLoop env room2).result = 0 →
      (gameLoop env room2).plies.length = 9) := by
  constructor
  · exact get_input_prompt_fail room current env1 hp (by omega)
  · intro env room2 h
    exact gameLoopF_res_zero_len env 9 room2 0 h

/-- Witness for the amended C2 theorem at a concrete room and environment. -/
theorem c2_amended_witness :
    get_input demoRoomFresh PLAYER_ONE (demoEnvFail 0) =
      ⟨demoRoomFresh, false,
        [(room_conns_all demoRoomFresh, OutMsg.text (turnLabel PLAYER_ONE)),
         ([if PLAYER_ONE = PLAYER_ONE then demoRoomFresh.players.getD 0 0
           else demoRoomFresh.players.getD 1 0],
          OutMsg.text "Error")]⟩ ∧
    (gameLoop demoEnvEmpty demoRoomFresh).plies.length = 9 :=
  ⟨(c2_amended_prompt_fail_no_abort demoRoomFresh PLAYER_ONE (demoEnvFail 0) rfl
      (by decide)).1,
   (c2_amended_prompt_fail_no_abort demoRoomFresh PLAYER_ONE (demoEnvFail 0) rfl
      (by decide)).2 demoEnvEmpty demoRoomFresh (by decide)⟩

/-- Claim C3: on a well-shaped 3×3 board (cells in 0, 1, 2) the Win
Evaluator returns exactly the first completed line's mark in the spec's
priority order rows, then columns, then diagonals (`firstLineWin`); in
particular a board whose only completed line is line `j` with mark `w`
yields `w`, and a (full) board with no completed line yields 0. -/
theorem c3_check_winner_priority (m : Board) (hwf : Wf3 m)
    (hcells : ∀ row ∈ m, ∀ x ∈ row, x ≤ 2) :
    check_winner m = firstLineWin m ∧
    (∀ j w, (lineWins m).get? j = some w → w ≠ 0 →
      (∀ w2 ∈ (lineWins m).eraseIdx j, w2 = 0) → check_winner m = w) ∧
    ((∀ row ∈ m, ∀ x ∈ row, x ≠ 0) → (∀ w ∈ lineWins m, w = 0) →
      check_winner m = 0) := by
  refine ⟨check_winner_eq_firstLineWin m hwf, ?_, ?_⟩
  · intro j w hj hw huniq
    rw [check_winner_eq_firstLineWin m hwf]
    exact foldr_pyOr_unique _ j w hj hw huniq
  · intro _ hall
    rw [check_winner_eq_firstLineWin m hwf]
    exact foldr_pyOr_all_zero _ hall

/-- Witness for C3: a top-row player-one win with no other line, and a
full drawn board. -/
theorem c3_witness :
    check_winner [[1, 1, 1], [2, 2, 0], [0, 0, 0]] =
      firstLineWin [[1, 1, 1], [2, 2, 0], [0, 0, 0]] ∧
    check_winner [[1, 1, 1], [2, 2, 0], [0, 0, 0]] = 1 ∧
    check_winner [[1, 2, 1], [1, 2, 2], [2, 1, 2]] = 0 :=
  ⟨(c3_check_winner_priority _ (by decide) (by decide)).1,
   (c3_check_winner_priority _ (by decide) (by decide)).2.1 0 1 (by decide) (by decide)
     (by decide),
   (c3_check_winner_priority _ (by decide) (by decide)).2.2 (by decide) (by decide)⟩

/-- Claim C4: a join-as-player request naming a room that already has two
players is answered `Room Full` and the connection is closed, and the
directory — hence the room's players, spectators and board — is returned
unchanged. -/
theorem c4_room_full_rejected (d : RoomDir) (conn addr : Nat) (code : String) (room : Room)
    (h : d code = some room) (h2 : room.players.length = 2) :
    join_room d conn addr code = ⟨d, [([conn], OutMsg.text "Room Full")], true, false⟩ :=
  join_room_full d conn addr code room h (by omega)

/-- Witness for C4 at a concrete full room. -/
theorem c4_witness :
    join_room demoDirFull 5 9 "AB" =
      ⟨demoDirFull, [([5], OutMsg.text "Room Full")], true, false⟩ :=
  c4_room_full_rejected demoDirFull 5 9 "AB" demoRoomOccupied rfl (by decide)

/-- Claim C5: the mover of ply `k` is determined purely by parity of the
ply counter — player-one on even plies, player-two on odd plies — for
every environment (message timing) whatsoever, with no skipping. -/
theorem c5_ply_parity (env : Nat → PlyEnv) (room : Room) (i : Nat) (p : PlyRec)
    (hp : (gameLoop env room).plies.get? i = some p) :
    p.idx = i ∧ p.mover = currentOf i ∧
      (i % 2 = 0 → p.mover = PLAYER_ONE) ∧ (i % 2 = 1 → p.mover = PLAYER_TWO) := by
  have h := gameLoopF_idx_mover env 9 room 0 0 i p hp
  simp only [Nat.zero_add] at h
  refine ⟨h.1, h.2, ?_, ?_⟩
  · intro he
    rw [h.2]
    unfold currentOf
    rw [if_pos he]
  · intro ho
    rw [h.2]
    unfold currentOf
    rw [if_neg (by omega)]

/-- Witness for C5: ply 1 of a concrete run is played by player-two. -/
theorem c5_witness :
    (⟨1, PLAYER_TWO, [[2, 0, 0], [0, 0, 0], [0, 0, 0]]⟩ : PlyRec).idx = 1 ∧
    (⟨1, PLAYER_TWO, [[2, 0, 0], [0, 0, 0], [0, 0, 0]]⟩ : PlyRec).mover = currentOf 1 ∧
    (1 % 2 = 0 →
      (⟨1, PLAYER_TWO, [[2, 0, 0], [0, 0, 0], [0, 0, 0]]⟩ : PlyRec).mover = PLAYER_ONE) ∧
    (1 % 2 = 1 →
      (⟨1, PLAYER_TWO, [[2, 0, 0], [0, 0, 0], [0, 0, 0]]⟩ : PlyRec).mover = PLAYER_TWO) :=
  c5_ply_parity demoEnvFail demoRoomFresh 1
    ⟨1, PLAYER_TWO, [[2, 0, 0], [0, 0, 0], [0, 0, 0]]⟩ (by decide)

/-- Claim C6: every engine run executes at most 9 plies; a run that ends
with `result = 0` executed exactly 9 plies (the draw case, announced with
the draw line); every ply before the last shows no winner (the loop stops
at the first winning ply), and a nonzero final result is exactly the Win
Evaluator's verdict on the last executed ply's board. -/
theorem c6_terminates_at_most_9 (env : Nat → PlyEnv) (room : Room) :
    (gameLoop env room).plies.length ≤ 9 ∧
    ((gameLoop env room).result = 0 → (gameLoop env room).plies.length = 9) ∧
    (∀ i p, (gameLoop env room).plies.get? i = some p →
      i + 1 < (gameLoop env room).plies.length → check_winner p.boardAfter = 0) ∧
    ((gameLoop env room).result ≠ 0 →
      ∃ p, (gameLoop env room).plies.get? ((gameLoop env room).plies.length - 1) = some p ∧
        check_winner p.boardAfter = (gameLoop env room).result) ∧
    lastMsg 0 = "Draw game!! Try again later!" := by
  refine ⟨gameLoopF_len_le env 9 room 0 0, ?_, ?_, ?_, rfl⟩
  · intro h
    exact gameLoopF_res_zero_len env 9 room 0 h
  · intro i p hp hlen
    exact gameLoopF_no_early_win env 9 room 0 i p hp hlen
  · intro h
    exact gameLoopF_win_at_last env 9 room 0 h

/-- Witness for C6: a moveless run executes exactly 9 plies and draws; a
run where player-one fills the top row stops after 5 plies with winner 1. -/
theorem c6_witness :
    (gameLoop demoEnvEmpty demoRoomFresh).plies.length ≤ 9 ∧
    (gameLoop demoEnvEmpty demoRoomFresh).plies.length = 9 ∧
    (gameLoop demoEnvWin demoRoomFresh).plies.length = 5 ∧
    (gameLoop demoEnvWin demoRoomFresh).result = PLAYER_ONE :=
  ⟨(c6_terminates_at_most_9 demoEnvEmpty demoRoomFresh).1,
   (c6_terminates_at_most_9 demoEnvEmpty demoRoomFresh).2.1 (by decide),
   by decide, by decide⟩

/-- Claim C7: once the engine's loop ends, the server broadcasts the
sentinel `Over` to every connection of the room, then exactly one result
line matching the outcome (player-one's line for result 1, player-two's
for result 2, the draw line otherwise), closes every connection in the
room, and removes the room — and only it — from the directory. -/
theorem c7_terminal_broadcast (d : RoomDir) (code : String) (room : Room)
    (env : Nat → PlyEnv) (h : d code = some room) :
    ∃ out, start_game_for_room d code env = some out ∧
      out.sends = [(out.closed, OutMsg.text "Over"),
                   (out.closed, OutMsg.text (lastMsg out.result))] ∧
      out.closed = room_conns_all out.room ∧
      (out.result = PLAYER_ONE → lastMsg out.result = "Player One is the winner!!") ∧
      (out.result = PLAYER_TWO → lastMsg out.result = "Player Two is the winner!!") ∧
      (out.result ≠ PLAYER_ONE → out.result ≠ PLAYER_TWO →
        lastMsg out.result = "Draw game!! Try again later!") ∧
      out.dir code = none ∧ (∀ c, c ≠ code → out.dir c = d c) := by
  unfold start_game_for_room
  rw [h, Option.map_some']
  refine ⟨_, rfl, rfl, rfl, ?_, ?_, ?_, ?_, ?_⟩
  · intro h1
    rw [h1]
    decide
  · intro h1
    rw [h1]
    decide
  · intro h1 h2
    unfold lastMsg
    rw [if_neg h1, if_neg h2]
  · simp [dirPop]
  · intro c hc
    simp [dirPop, hc]

/-- Witness for C7 at a concrete room and environment. -/
theorem c7_witness :
    ∃ out, start_game_for_room demoDirFull "AB" demoEnvEmpty = some out ∧
      out.sends = [(out.closed, OutMsg.text "Over"),
                   (out.closed, OutMsg.text (lastMsg out.result))] ∧
      out.dir "AB" = none := by
  obtain ⟨out, h1, h2, _, _, _, _, h7, _⟩ :=
    c7_terminal_broadcast demoDirFull "AB" demoRoomOccupied demoEnvEmpty rfl
  exact ⟨out, h1, h2, h7⟩

/-- Claim C8 counterexample: a chat message from the current mover whose
text contains exactly one comma is consumed by the move-parsing branch
(`int("CHAT:hi")` fails and the wait loop just continues) and is never
relayed: `CHAT:hi,friends` from the mover produces no send at all,
although the claim requires a `CHAT:<label>:<text>` broadcast for every
chat message from any connection. -/
theorem c8_counterexample_mover_comma_chat_dropped :
    pyStartsWith (pyStrip "CHAT:hi,friends") "CHAT:" = true ∧
    getInputLoop PLAYER_ONE 10 demoRoomOccupied [Recv.msg 10 "CHAT:hi,friends"] =
      ⟨demoRoomOccupied, false, []⟩ :=
  ⟨by decide, by decide⟩

/-- Claim C8 (amended): every `CHAT:`-prefixed message — except one from
the current mover whose text contains exactly one comma, which the
move-parsing branch consumes and drops — is broadcast to all connections
of the room (players and spectators, the sender included) as
`CHAT:<label>:<text>`, where the label is `Player1`/`Player2` by index for
a current player (player index + 1 in general), `spec_<n>` with `n` the
spectator's 1-based position in the current spectator list (its join
order) for a current spectator, and `Unknown` otherwise. -/
theorem c8_amended_chat_relay (room : Room) (current turn s : Nat) (raw : String)
    (rest : List Recv)
    (hnm : ¬(s = turn ∧ pyCountChar (pyStrip raw) ',' = 1))
    (hchat : pyStartsWith (pyStrip raw) "CHAT:" = true) :
    (getInputLoop current turn room (Recv.msg s raw :: rest)).sends =
      (room_conns_all room,
        OutMsg.text ("CHAT:" ++ get_sender_label room s ++ ":" ++
          pyStrip (pyDrop (pyStrip raw) 5)))
        :: (getInputLoop current turn room rest).sends ∧
    (s ∈ room.players → room.players.length ≤ 2 →
      get_sender_label room s = "Player1" ∨ get_sender_label room s = "Player2") ∧
    (s ∈ room.players →
      get_sender_label room s = "Player" ++ toString (room.players.indexOf s + 1)) ∧
    (s ∉ room.players → s ∈ room.spectators →
      get_sender_label room s = "spec_" ++ toString (room.spectators.indexOf s + 1)) ∧
    (s ∉ room.players → s ∉ room.spectators → get_sender_label room s = "Unknown") := by
  refine ⟨?_, get_sender_label_player12 room s, get_sender_label_player room s,
    get_sender_label_spectator room s, get_sender_label_unknown room s⟩
  rw [getInputLoop_chat room current turn s raw rest hnm hchat]
  rfl

/-- Witness for the amended C8 theorem: a spectator's chat in a two-player
room is relayed with label `spec_1`. -/
theorem c8_amended_witness :
    (getInputLoop PLAYER_ONE 10 demoRoomOccupied [Recv.msg 20 "CHAT:yo"]).sends =
      (room_conns_all demoRoomOccupied,
        OutMsg.text ("CHAT:" ++ get_sender_label demoRoomOccupied 20 ++ ":" ++
          pyStrip (pyDrop (pyStrip "CHAT:yo") 5)))
        :: (getInputLoop PLAYER_ONE 10 demoRoomOccupied []).sends ∧
    get_sender_label demoRoomOccupied 20 =
      "spec_" ++ toString (demoRoomOccupied.spectators.indexOf 20 + 1) :=
  ⟨(c8_amended_chat_relay demoRoomOccupied PLAYER_ONE 10 20 "CHAT:yo" [] (by decide)
      (by decide)).1,
   (c8_amended_chat_relay demoRoomOccupied PLAYER_ONE 10 20 "CHAT:yo" [] (by decide)
      (by decide)).2.2.2.1 (by decide) (by decide)⟩

/-- Claim C9: joining preserves the invariant that every room holds at
most two players (also along any operation sequence from the empty
directory); `join_room` starts a turn engine exactly when the room had
exactly one player before the join; a one-player room is created only for
an unseen code; and along any join sequence the engine for a given code
is started at most once — exactly once whenever the room reaches two
players. -/
theorem c9_join_invariants :
    (∀ d op, DirInv d → DirInv (applyOp d op).1) ∧
    (∀ ops code room, runDir emptyDir ops code = some room →
      room.players.length ≤ 2) ∧
    (∀ d conn addr code, (join_room d conn addr code).startedEngine = true ↔
      ∃ r, d code = some r ∧ r.players.length = 1) ∧
    (∀ d conn addr code, d code = none →
      (join_room d conn addr code).dir code =
        some ⟨code, [conn], [addr], [], emptyMatrix⟩) ∧
    (∀ code ops d, startsFor d code ops ≤ 1) ∧
    (∀ ops code room, runDir emptyDir ops code = some room →
      room.players.length = 2 → startsFor emptyDir code ops = 1) := by
  have hinv : DirInv emptyDir := by
    intro code room h
    simp [emptyDir] at h
  refine ⟨applyOp_dirInv, ?_, join_room_started_iff, ?_, ?_, ?_⟩
  · intro ops code room h
    exact runDir_dirInv ops emptyDir hinv code room h
  · intro d conn addr code h
    unfold join_room
    rcases hd : d code with _ | r
    · simp [dirSet]
    · rw [hd] at h
      exact Option.noConfusion h
  · intro code ops d
    exact startsFor_le_one code ops d
  · intro ops code room hrun hl2
    have hge2 : countGe (runDir emptyDir ops) code 2 := ⟨room, hrun, by omega⟩
    have hnot : ¬ countGe emptyDir code 2 := by
      rintro ⟨r, hr, -⟩
      simp [emptyDir] at hr
    have hp := startsFor_pos_of_reach2 code ops emptyDir hnot hge2
    have hle := startsFor_le_one code ops emptyDir
    omega

/-- Witness for C9: two players joining `AB` followed by a spectator start
the engine exactly once, and the invariant holds on the first step. -/
theorem c9_witness :
    startsFor emptyDir "AB" demoOps ≤ 1 ∧
    startsFor emptyDir "AB" demoOps = 1 ∧
    DirInv (applyOp emptyDir (JoinOp.joinP 1 1 "AB")).1 :=
  ⟨c9_join_invariants.2.2.2.2.1 "AB" demoOps emptyDir,
   c9_join_invariants.2.2.2.2.2 demoOps "AB" ⟨"AB", [1, 2], [1, 2], [3], emptyMatrix⟩
     (by decide) (by decide),
   c9_join_invariants.1 emptyDir (JoinOp.joinP 1 1 "AB")
     (fun code room h => by simp [emptyDir] at h)⟩

/-- Claim C10: a directory entry with zero players (as created by a
`SPECTATE` handshake on an unseen code) answers a subsequent `ROOM` join
with `Room Full` and a closed connection, returning the directory
unchanged — the connection is never seated as player-one. -/
theorem c10_zero_player_room_full :
    (∀ d conn addr code room, d code = some room → room.players = [] →
      join_room d conn addr code =
        ⟨d, [([conn], OutMsg.text "Room Full")], true, false⟩) ∧
    (∀ d conn addr code ok, d code = none →
      ∃ room, (join_as_spectator d conn addr code ok).dir code = some room ∧
        room.players = []) := by
  constructor
  · intro d conn addr code room h hp
    exact join_room_full d conn addr code room h (by simp [hp])
  · intro d conn addr code ok h
    obtain ⟨r2, hr2, hcase⟩ := joinS_players_self d conn addr code ok
    rcases hcase with ⟨-, hp⟩ | ⟨r, hsome, -⟩
    · exact ⟨r2, hr2, hp⟩
    · rw [h] at hsome
      exact Option.noConfusion hsome

/-- Witness for C10: a spectator creates the zero-player room `ZZ`, and a
player join on `ZZ` is then rejected with `Room Full`. -/
theorem c10_witness :
    (∃ room, (join_as_spectator emptyDir 7 7 "ZZ" true).dir "ZZ" = some room ∧
      room.players = []) ∧
    join_room demoDirSpec 5 5 "ZZ" =
      ⟨demoDirSpec, [([5], OutMsg.text "Room Full")], true, false⟩ :=
  ⟨c10_zero_player_room_full.2 emptyDir 7 7 "ZZ" true rfl,
   c10_zero_player_room_full.1 demoDirSpec 5 5 "ZZ" ⟨"ZZ", [], [], [7], emptyMatrix⟩
     (by decide) rfl⟩
